import Mathlib

/-!
# Verification of the mcp-server-pubmed repository against its specification

This file gives a shallow embedding, in Lean 4, of the parts of the
`mcp-server-pubmed` TypeScript repository that the frozen claims are about,
and settles each claim against that embedding.

The repository's `src/index.ts` (argument parsing, configuration record,
MCP tool listing and tool-call dispatch) is embedded directly from the
source.  The handler/API layer (rate limiter, cache, in-flight registry,
upstream transport, batch re-assembly) is not present in the source tree;
those components are modelled from the specification's own description, and
each such definition is marked `Modelled from the spec:` in its doc comment.
-/

namespace PubmedMCP

/-! ## JavaScript-semantics helpers

`index.ts` relies on JavaScript truthiness (`a || b`, `cond && val`) and on
`parseInt`.  These helpers embed exactly those semantics for the string /
number values that occur there. -/

/-- A JavaScript number as produced by `parseInt`: either `NaN` or an
integer value. -/
inductive JSNum where
  | nan
  | int (n : ℤ)
deriving DecidableEq, Repr

/-- JavaScript truthiness filter on an optional string: `undefined` and the
empty string are falsy, every other string is truthy.  `jsTruthy o` is
`some s` exactly when the JS value is truthy. -/
def jsTruthy (o : Option String) : Option String :=
  match o with
  | some s => if s = "" then none else some s
  | none => none

/-- JavaScript `a || b` on optional strings: the left value is returned when
it is truthy (present and non-empty), otherwise the right value is returned
as-is.  This embeds the `cmdArgs.x || process.env.Y` reads of `index.ts`. -/
def jsOrStr (a b : Option String) : Option String :=
  match a with
  | some s => if s = "" then b else some s
  | none => b

/-- Value of a character as a digit in the given radix (decimal digits and
latin letters, case-insensitive), as ECMAScript `parseInt` interprets it. -/
def digitVal (radix : ℕ) (c : Char) : Option ℕ :=
  let v : ℕ :=
    if 48 ≤ c.toNat ∧ c.toNat ≤ 57 then c.toNat - 48
    else if 97 ≤ c.toNat ∧ c.toNat ≤ 122 then c.toNat - 87
    else if 65 ≤ c.toNat ∧ c.toNat ≤ 90 then c.toNat - 55
    else 99
  if v < radix then some v else none

/-- Accumulate the longest prefix of digits in the given radix, returning the
accumulated value and the number of digits consumed. -/
def parseDigits (radix : ℕ) : List Char → ℕ → ℕ → ℕ × ℕ
  | [], acc, cnt => (acc, cnt)
  | c :: cs, acc, cnt =>
    match digitVal radix c with
    | some v => parseDigits radix cs (acc * radix + v) (cnt + 1)
    | none => (acc, cnt)

/-- Strip a single leading sign character, returning whether the value is
negated and the remaining characters. -/
def stripSign : List Char → Bool × List Char
  | '-' :: rest => (true, rest)
  | '+' :: rest => (false, rest)
  | cs => (false, cs)

/-- Detect the ECMAScript hexadecimal prefix `0x` / `0X`, returning the
radix to use and the remaining characters. -/
def stripHexMark : List Char → ℕ × List Char
  | '0' :: 'x' :: rest => (16, rest)
  | '0' :: 'X' :: rest => (16, rest)
  | cs => (10, cs)

/-- ECMAScript `parseInt(s)` with no radix argument: skip leading
whitespace, accept one optional sign, detect a `0x` prefix, read the longest
prefix of digits of the chosen radix; `NaN` when no digit was read. -/
def jsParseInt (s : String) : JSNum :=
  let cs0 := s.toList.dropWhile (fun c => c.isWhitespace)
  let sg := stripSign cs0
  let hx := stripHexMark sg.2
  let pr := parseDigits hx.1 hx.2 0 0
  if pr.2 = 0 then JSNum.nan
  else JSNum.int (if sg.1 then -(pr.1 : ℤ) else (pr.1 : ℤ))

/-! ## Command-line argument parsing (`parseArgs` in `index.ts`)

The TS loop walks the argument vector; on an argument starting with `--` it
takes the next argument as the value when that next argument exists, is
truthy (non-empty) and does not itself start with `--`, storing
`parsed[key] = value` (later occurrences overwrite earlier ones) and
skipping the consumed value. -/

/-- The test `arg.startsWith('--')` of `index.ts`, phrased on the
character list. -/
def isFlagArg (s : String) : Bool :=
  match s.toList with
  | '-' :: '-' :: _ => true
  | _ => false

/-- The key extraction `arg.slice(2)` of `index.ts` (the characters after
the leading `--`), phrased on the character list. -/
def flagKey (s : String) : String :=
  String.mk (s.toList.drop 2)

/-- Worker for `parseArgsList`; the first component is the flag key (text
after `--`) awaiting its value, if any. -/
def parseArgsGo : Option String → List String → List (String × String)
  | _, [] => []
  | none, a :: rest =>
    if isFlagArg a then parseArgsGo (some (flagKey a)) rest
    else parseArgsGo none rest
  | some k, v :: rest =>
    if v ≠ "" ∧ ¬ isFlagArg v then (k, v) :: parseArgsGo none rest
    else if isFlagArg v then parseArgsGo (some (flagKey v)) rest
    else parseArgsGo none rest

/-- Embedding of `parseArgs` from `index.ts`: the TS loop examines each
argument; a `--`-argument whose following argument exists, is non-empty and
is not itself a `--`-argument stores that following argument under the flag
key (later occurrences overwrite earlier ones, see `lookupLast`) and skips
it; otherwise the following argument is examined afresh. -/
def parseArgsList (args : List String) : List (String × String) :=
  parseArgsGo none args

/-- Lookup in the association list built by `parseArgsList`, with the
last-written value winning, matching JS object assignment `parsed[key] = v`. -/
def lookupLast (l : List (String × String)) (k : String) : Option String :=
  (l.reverse.find? (fun p => p.1 == k)).map (fun p => p.2)

/-- The environment variables read by `index.ts`. -/
structure EnvVars where
  pubmedEmail : Option String
  pubmedApiKey : Option String
  pubmedCacheDir : Option String
  pubmedCacheTTL : Option String

/-- The four configuration values of `index.ts` after merging command-line
flags with environment variables (`cmdArgs.x || process.env.Y`). -/
structure ConfigValues where
  email : Option String
  apiKey : Option String
  cacheDir : Option String
  cacheTTL : Option String
deriving DecidableEq, Repr

/-- Embedding of the configuration reads of `index.ts` lines 45-51: parse
the argument vector, then merge each flag with its environment variable
using JS `||`. -/
def readConfig (argv : List String) (env : EnvVars) : ConfigValues :=
  let parsed := parseArgsList argv
  { email := jsOrStr (lookupLast parsed "email") env.pubmedEmail
    apiKey := jsOrStr (lookupLast parsed "api-key") env.pubmedApiKey
    cacheDir := jsOrStr (lookupLast parsed "cache-dir") env.pubmedCacheDir
    cacheTTL := jsOrStr (lookupLast parsed "cache-ttl") env.pubmedCacheTTL }

/-- One of the four configuration values `index.ts` reads. -/
inductive ConfigKey where
  | email
  | apiKey
  | cacheDir
  | cacheTTL
deriving DecidableEq, Repr

/-- The command-line flag name for a configuration value. -/
def ConfigKey.flagName : ConfigKey → String
  | ConfigKey.email => "email"
  | ConfigKey.apiKey => "api-key"
  | ConfigKey.cacheDir => "cache-dir"
  | ConfigKey.cacheTTL => "cache-ttl"

/-- The environment variable consulted for a configuration value. -/
def ConfigKey.envValue (env : EnvVars) : ConfigKey → Option String
  | ConfigKey.email => env.pubmedEmail
  | ConfigKey.apiKey => env.pubmedApiKey
  | ConfigKey.cacheDir => env.pubmedCacheDir
  | ConfigKey.cacheTTL => env.pubmedCacheTTL

/-- Project a configuration value out of the merged record. -/
def ConfigKey.configValue (cfg : ConfigValues) : ConfigKey → Option String
  | ConfigKey.email => cfg.email
  | ConfigKey.apiKey => cfg.apiKey
  | ConfigKey.cacheDir => cfg.cacheDir
  | ConfigKey.cacheTTL => cfg.cacheTTL

/-- The options record handed to the three handler factories
(`pubmedOptions` in `index.ts`): optional fields are spread in only when the
underlying configuration string is truthy, and `cacheTTL` is converted with
`parseInt`. -/
structure PubmedOptions where
  email : String
  apiKey : Option String
  cacheDir : Option String
  cacheTTL : Option JSNum
deriving DecidableEq, Repr

/-- Embedding of startup (`index.ts` lines 53-76): exit with an error when
`email` is falsy, otherwise build `pubmedOptions` with JS-truthiness spreads
and `parseInt` on the TTL string.  `none` models the `process.exit(1)`
path; no other input is rejected. -/
def startupOptions (cfg : ConfigValues) : Option PubmedOptions :=
  match jsTruthy cfg.email with
  | none => none
  | some e =>
    some { email := e
           apiKey := jsTruthy cfg.apiKey
           cacheDir := jsTruthy cfg.cacheDir
           cacheTTL := (jsTruthy cfg.cacheTTL).map jsParseInt }

/-! ## Handler-side configuration interpretation (modelled from the spec)

The handler modules (`handlers/search.ts` etc. and the API layer they use)
are not present in the source tree; their interpretation of the options
record is modelled from the specification. -/

/-- Modelled from the spec: the rate budget used by the missing handler/API
layer, "3 default, 10 if an API credential is configured" (spec section 4.1
and section 6). -/
def effectiveRateBudget (opts : PubmedOptions) : ℕ :=
  if opts.apiKey.isSome then 10 else 3

/-- Cache configuration derived from the options record. -/
inductive CacheConfig where
  | disabled
  | enabled (ttlSeconds : JSNum)
deriving DecidableEq, Repr

/-- Modelled from the spec: how the missing handler/API layer derives its
cache configuration, "default when persistence is enabled: 86400; caching
fully disabled if no TTL and no directory are supplied" (spec section 6;
section 4.2: "If no TTL is configured, caching is disabled entirely"). -/
def effectiveCacheConfig (opts : PubmedOptions) : CacheConfig :=
  match opts.cacheTTL with
  | some t => CacheConfig.enabled t
  | none =>
    match opts.cacheDir with
    | some _ => CacheConfig.enabled (JSNum.int 86400)
    | none => CacheConfig.disabled

/-! ## ResponseCache (modelled from the spec, section 4.2 and section 3)

A cache entry records the stored value, the store time and the TTL; an
entry is valid iff `now < storedAt + ttlSeconds`.  The state is a map from
fingerprints to entries. -/

/-- Modelled from the spec: a `CacheEntry` record (spec section 3). -/
structure CacheEntry (α : Type) where
  value : α
  storedAt : ℕ
  ttlSeconds : ℕ

/-- The cache state: fingerprint to optional entry. -/
def CacheState (α : Type) : Type := String → Option (CacheEntry α)

/-- Modelled from the spec: `get(fingerprint) -> value or absent`, returning
absent for missing or expired entries; an entry is valid iff
`now < storedAt + ttlSeconds` (spec sections 3 and 4.2). -/
def cacheGet {α : Type} (st : CacheState α) (now : ℕ) (fp : String) : Option α :=
  match st fp with
  | some e => if now < e.storedAt + e.ttlSeconds then some e.value else none
  | none => none

/-- Modelled from the spec: `set(fingerprint, value, ttl)` overwrites any
prior entry for the same fingerprint (spec section 4.2). -/
def cacheSet {α : Type} (st : CacheState α) (fp : String) (v : α)
    (now ttl : ℕ) : CacheState α :=
  fun f => if f = fp then some ⟨v, now, ttl⟩ else st f

/-- Modelled from the spec: a cache read under a configuration; with
caching disabled every `get` is a miss (spec section 4.2). -/
def cacheGetCfg {α : Type} (cfg : CacheConfig) (st : CacheState α)
    (now : ℕ) (fp : String) : Option α :=
  match cfg with
  | CacheConfig.disabled => none
  | CacheConfig.enabled _ => cacheGet st now fp

/-- Number of seconds a configured TTL stands for when writing an entry;
the disabled configuration never reaches this. -/
def JSNum.ttlSeconds : JSNum → ℕ
  | JSNum.nan => 0
  | JSNum.int n => n.toNat

/-- Modelled from the spec: a cache write under a configuration; with
caching disabled `set` is a no-op (spec section 4.2). -/
def cacheSetCfg {α : Type} (cfg : CacheConfig) (st : CacheState α)
    (fp : String) (v : α) (now : ℕ) : CacheState α :=
  match cfg with
  | CacheConfig.disabled => st
  | CacheConfig.enabled ttl => cacheSet st fp v now ttl.ttlSeconds

/-! ## MCP tool surface (`index.ts` lines 82-257)

The `ListToolsRequestSchema` handler returns a static list of three tool
declarations; the `CallToolRequestSchema` handler dispatches on the tool
name, invokes the matching handler once with the destructured arguments,
wraps a successful result as one JSON text content item, wraps a handler
failure as one text content item carrying the error message, and throws
`Unknown tool: <name>` for any other name. -/

/-- A node of the static JSON input schema declared for a tool in
`index.ts`.  Object nodes carry an optional description (the top-level
schema object has none), the property list in declaration order, and the
`required` list (empty when the source declares none). -/
inductive SchemaNode where
  | strProp (description : String)
  | strEnumProp (enumVals : List String) (description : String)
  | numProp (description : String)
  | arrStrProp (description : String)
  | objProp (description : Option String) (properties : List (String × SchemaNode))
      (required : List String)

/-- One tool declaration of the `ListToolsRequestSchema` handler. -/
structure ToolDecl where
  name : String
  description : String
  inputSchema : SchemaNode

/-- Embedding of the static tool list returned by the
`ListToolsRequestSchema` handler (`index.ts` lines 82-162), including the
source's exact names and description strings. -/
def listToolsResult : List ToolDecl :=
  [ { name := "search_pubmed"
      description := "Search PubMed for scientific articles. "
      inputSchema := SchemaNode.objProp none
        [ ("query", SchemaNode.strProp "Search query for PubMed")
        , ("searchOptions", SchemaNode.objProp (some "Optional search parameters")
            [ ("retMax", SchemaNode.numProp "Maximum number of results to return")
            , ("retStart", SchemaNode.numProp "Starting index for results")
            , ("sort", SchemaNode.strEnumProp
                ["relevance", "pub_date", "author", "journal"] "Sort order for results")
            , ("dateFrom", SchemaNode.strProp "Start date filter (YYYY/MM/DD format)")
            , ("dateTo", SchemaNode.strProp "End date filter (YYYY/MM/DD format)") ] [])
        ] ["query"] }
  , { name := "fetch_summary"
      description := "Fetch detailed article information from PubMed using PMIDs. "
      inputSchema := SchemaNode.objProp none
        [ ("pmids", SchemaNode.arrStrProp "Array of PubMed IDs (PMIDs) to fetch") ]
        ["pmids"] }
  , { name := "get_fulltext"
      description := "Get full text content of PubMed articles using PMIDs."
      inputSchema := SchemaNode.objProp none
        [ ("pmids", SchemaNode.arrStrProp "Array of PubMed IDs (PMIDs) to get full text for") ]
        ["pmids"] } ]

/-- The `searchOptions` argument object as destructured by the dispatch
code; every field is optional at runtime. -/
structure SearchOptionsArg where
  retMax : Option ℤ := none
  retStart : Option ℤ := none
  sort : Option String := none
  dateFrom : Option String := none
  dateTo : Option String := none
deriving DecidableEq, Repr

/-- The `request.params.arguments` record as the dispatch code destructures
it (an unchecked cast in TS, so every field may be absent). -/
structure ToolCallArgs where
  query : Option String := none
  searchOptions : Option SearchOptionsArg := none
  pmids : Option (List String) := none

/-- A value rejected by a handler: either an `Error` instance carrying a
message, or any other value (which has no message). -/
inductive Thrown where
  | errObj (message : String)
  | nonErr
deriving DecidableEq, Repr

/-- The text the dispatch code extracts from a rejected value:
`error instanceof Error ? error.message : 'Unknown error'`. -/
def thrownText : Thrown → String
  | Thrown.errObj m => m
  | Thrown.nonErr => "Unknown error"

/-- The three handler operations as the dispatch layer sees them: each takes
the destructured (possibly absent) arguments and either resolves to a result
value of type `J` or rejects with a thrown value. -/
structure Handlers (J : Type) where
  search : Option String → Option SearchOptionsArg → Except Thrown J
  fetchSummary : Option (List String) → Except Thrown J
  getFullText : Option (List String) → Except Thrown J

/-- A record of one handler invocation performed by the dispatch code,
with the arguments it was given. -/
inductive HandlerCall where
  | searchCall (query : Option String) (options : Option SearchOptionsArg)
  | fetchSummaryCall (pmids : Option (List String))
  | getFullTextCall (pmids : Option (List String))
deriving DecidableEq

/-- One item of the `content` array of a tool-call response. -/
structure ContentItem where
  type : String
  text : String
deriving DecidableEq, Repr

/-- A tool-call response as built by the dispatch code. -/
structure ToolResponse where
  content : List ContentItem
deriving DecidableEq, Repr

/-- Embedding of the `CallToolRequestSchema` handler (`index.ts` lines
164-257).  `stringify` stands for `JSON.stringify(results, null, 2)`.  The
returned list records the handler invocations the dispatch performed; a
thrown `Unknown tool` error is the `Except.error` case. -/
def callTool {J : Type} (stringify : J → String) (h : Handlers J)
    (name : String) (args : ToolCallArgs) :
    Except String (ToolResponse × List HandlerCall) :=
  if name = "search_pubmed" then
    let txt :=
      match h.search args.query args.searchOptions with
      | Except.ok v => stringify v
      | Except.error e => "Error searching PubMed: " ++ thrownText e
    Except.ok (⟨[⟨"text", txt⟩]⟩, [HandlerCall.searchCall args.query args.searchOptions])
  else if name = "fetch_summary" then
    let txt :=
      match h.fetchSummary args.pmids with
      | Except.ok v => stringify v
      | Except.error e => "Error fetching article summaries: " ++ thrownText e
    Except.ok (⟨[⟨"text", txt⟩]⟩, [HandlerCall.fetchSummaryCall args.pmids])
  else if name = "get_fulltext" then
    let txt :=
      match h.getFullText args.pmids with
      | Except.ok v => stringify v
      | Except.error e => "Error fetching full text: " ++ thrownText e
    Except.ok (⟨[⟨"text", txt⟩]⟩, [HandlerCall.getFullTextCall args.pmids])
  else
    Except.error ("Unknown tool: " ++ name)

/-! ## InFlightRegistry (modelled from the spec, section 4.3)

The registry collapses concurrent duplicate requests for one fingerprint.
Its behaviour on one fingerprint is a state machine over events: a caller
arrives (the first arrival while no call is pending invokes the producer,
i.e. the real upstream call; later arrivals attach to the pending outcome),
and the pending call settles with an outcome (the entry is removed and all
attached callers receive that same outcome). -/

/-- Modelled from the spec: registry state for one fingerprint — the list
of callers attached to the pending call (if any), the outcome delivered to
each settled caller, and counters for producer invocations (upstream calls)
and entry removals. -/
structure RegState (α : Type) where
  pending : Option (List ℕ)
  results : List (ℕ × α)
  producerRuns : ℕ
  removals : ℕ
deriving Repr

/-- The registry state before any caller arrives. -/
def regInit {α : Type} : RegState α :=
  { pending := none, results := [], producerRuns := 0, removals := 0 }

/-- An event at the registry: a caller arrives, or the pending call
settles with an outcome (success or failure alike, as a value). -/
inductive RegEvent (α : Type) where
  | arrive (id : ℕ)
  | settle (o : α)

/-- Modelled from the spec: one registry transition.  The first arrival for
an idle fingerprint invokes the producer; later arrivals attach; settlement
removes the entry and delivers the same outcome to every attached caller
(spec section 4.3). -/
def regStep {α : Type} (s : RegState α) : RegEvent α → RegState α
  | RegEvent.arrive i =>
    match s.pending with
    | none =>
      { s with pending := some [i], producerRuns := s.producerRuns + 1 }
    | some l =>
      { s with pending := some (l ++ [i]) }
  | RegEvent.settle o =>
    match s.pending with
    | some l =>
      { pending := none
        results := s.results ++ l.map (fun i => (i, o))
        producerRuns := s.producerRuns
        removals := s.removals + 1 }
    | none => s

/-- Run the registry over a list of events. -/
def regRun {α : Type} (s : RegState α) (es : List (RegEvent α)) : RegState α :=
  es.foldl regStep s

/-! ## fetchSummary batch assembly (modelled from the spec, section 4.6)

`fetchSummary` splits the requested PMIDs into upstream-sized batches, the
upstream answers each batch with the found records in arbitrary order, and
the results are re-assembled in the caller's requested order with an
explicit "not found" marker for PMIDs absent upstream. -/

/-- One position of a `fetchSummary` result: a summary found upstream, or
an explicit "not found" marker carrying the requested PMID. -/
inductive SummaryEntry (α : Type) where
  | found (s : α)
  | notFound (pmid : String)
deriving DecidableEq, Repr

/-- Split a list into consecutive batches of `n + 1` elements (the upstream
caps per-call ID counts; the exact cap is immaterial, so it is a
parameter). -/
def chunkList {γ : Type} (n : ℕ) : List γ → List (List γ)
  | [] => []
  | x :: xs => (x :: xs.take n) :: chunkList n (xs.drop n)
termination_by l => l.length
decreasing_by
  simp only [List.length_cons, List.length_drop]
  omega

/-- The record pairs upstream holds for a list of PMIDs, in request order:
one `(pmid, summary)` pair for each PMID the upstream knows. -/
def foundPairs {α : Type} (oracle : String → Option α) (ps : List String) :
    List (String × α) :=
  ps.filterMap (fun p => (oracle p).map (fun s => (p, s)))

/-- First summary stored for a PMID in a response pool. -/
def lookupPmid {α : Type} (resp : List (String × α)) (p : String) : Option α :=
  (resp.find? (fun q => q.1 == p)).map (fun q => q.2)

/-- Modelled from the spec: re-assembly of `fetchSummary` results in the
caller's requested PMID order from the pooled batch responses, with an
explicit "not found" marker for a PMID with no record (spec section 4.6). -/
def assembleSummaries {α : Type} (responses : List (List (String × α)))
    (pmids : List String) : List (SummaryEntry α) :=
  pmids.map (fun p =>
    match lookupPmid responses.flatten p with
    | some s => SummaryEntry.found s
    | none => SummaryEntry.notFound p)

/-! ## getFullText isolation (modelled from the spec, sections 4.6 and 7)

Each PMID is fetched independently; a per-PMID failure (for example a
`TransientUpstreamError` after retry exhaustion) is caught and turned into
a `null` entry, so the batch as a whole always returns a full-length
sequence. -/

/-- A `FullTextResult` record (spec section 3): `fullText` is `null` when
no full text is available or the fetch for that PMID failed. -/
structure FullTextResult where
  pmid : String
  fullText : Option String
deriving DecidableEq, Repr

/-- The error type crossing the transport boundary (spec section 7). -/
inductive UpstreamErr where
  | transientExhausted
  | invalidRequest
deriving DecidableEq, Repr

/-- Modelled from the spec: the per-PMID catch of `getFullText` — a fetch
failure becomes a `null`-annotated entry instead of escalating (spec
section 4.6). -/
def fullTextEntry (p : String) (r : Except UpstreamErr (Option String)) :
    FullTextResult :=
  match r with
  | Except.ok t => { pmid := p, fullText := t }
  | Except.error _ => { pmid := p, fullText := none }

/-- Modelled from the spec: `getFullText` fans out one independent fetch
per PMID and catches each failure per element, so it always produces a
value-level list — per-element failures never become a failure of the
batch call (spec sections 4.6 and 7). -/
def getFullTextModel (fetch : String → Except UpstreamErr (Option String))
    (pmids : List String) : List FullTextResult :=
  pmids.map (fun p => fullTextEntry p (fetch p))

/-! ## UpstreamTransport attempts and rate-limiter tokens (modelled from
the spec, sections 4.1 and 4.4)

Every genuine upstream attempt — including each retry — first acquires a
rate-limiter token; a cache hit performs no attempt and acquires no token.
The transport retries transient failures up to a fixed attempt ceiling
of 3. -/

/-- An observable event of the call pipeline: a rate-limiter token is
consumed, or an upstream HTTP attempt is made. -/
inductive PipeEvent where
  | acquireToken
  | upstreamAttempt
deriving DecidableEq, Repr

/-- Outcome of one upstream attempt, as an oracle indexed by attempt
number. -/
inductive AttemptOutcome where
  | ok (raw : String)
  | transient
  | fatal
deriving DecidableEq, Repr

/-- Modelled from the spec: the transport retry loop with remaining-attempt
fuel.  Each attempt first consumes a rate-limiter token ("All retries
re-acquire a rate-limiter slot", spec section 4.4); a transient outcome
retries, exhaustion fails with `TransientUpstreamError`, a non-retryable
outcome fails immediately. -/
def transportGo (oracle : ℕ → AttemptOutcome) :
    ℕ → ℕ → List PipeEvent × Except UpstreamErr String
  | 0, _ => ([], Except.error UpstreamErr.transientExhausted)
  | fuel + 1, i =>
    match oracle i with
    | AttemptOutcome.ok raw =>
      ([PipeEvent.acquireToken, PipeEvent.upstreamAttempt], Except.ok raw)
    | AttemptOutcome.fatal =>
      ([PipeEvent.acquireToken, PipeEvent.upstreamAttempt],
        Except.error UpstreamErr.invalidRequest)
    | AttemptOutcome.transient =>
      let r := transportGo oracle fuel (i + 1)
      (PipeEvent.acquireToken :: PipeEvent.upstreamAttempt :: r.1, r.2)

/-- Modelled from the spec: `UpstreamTransport.call` with the fixed attempt
ceiling of 3 (spec section 4.4). -/
def transportCall (oracle : ℕ → AttemptOutcome) :
    List PipeEvent × Except UpstreamErr String :=
  transportGo oracle 3 0

/-- Modelled from the spec: one operation run — a cache hit returns the
cached value with no pipeline events at all, a miss performs the real
rate-limited transport call (spec sections 2 and 4.1). -/
def operationRun (cached : Option String) (oracle : ℕ → AttemptOutcome) :
    List PipeEvent × Except UpstreamErr String :=
  match cached with
  | some v => ([], Except.ok v)
  | none => transportCall oracle

/-! ## RateLimiter token bucket (modelled from the spec, section 4.1)

Capacity `B` tokens (the configured requests-per-second budget), refilling
continuously at `B` tokens per second, capped at capacity, starting full.
A request is granted at time `t` (milliseconds) when, after refilling for
the elapsed time, at least one token is available; granting consumes one
token.  Because `acquire` only ever delays callers, the set of realizable
sequences of upstream request times is exactly the set of valid grant
schedules of this bucket. -/

/-- Modelled from the spec: token-bucket state.  Token amounts are exact in
units of one thousandth of a token (a budget of `B` requests per second
refills at exactly `B` milli-tokens per millisecond), so the continuous
refill is represented without rounding for integer-millisecond times.
`milliTokens` is the available amount; `lastMs` the time of the last
update. -/
structure TBState where
  milliTokens : ℤ
  lastMs : ℕ

/-- Modelled from the spec: the balance after refilling proportionally to
the elapsed time, capped at the capacity of `B` tokens. -/
def tbRefill (B : ℕ) (s : TBState) (t : ℕ) : ℤ :=
  min (1000 * (B : ℤ)) (s.milliTokens + (B : ℤ) * ((t : ℤ) - (s.lastMs : ℤ)))

/-- Modelled from the spec: grant one request at time `t` (ms): refill,
then the grant is possible when at least one full token is available, and
consumes it. -/
def tbStep (B : ℕ) (s : TBState) (t : ℕ) : Option TBState :=
  if 1000 ≤ tbRefill B s t then
    some { milliTokens := tbRefill B s t - 1000, lastMs := t }
  else none

/-- Replay a whole schedule of grant times through the bucket. -/
def tbRun (B : ℕ) : TBState → List ℕ → Option TBState
  | s, [] => some s
  | s, t :: ts =>
    match tbStep B s t with
    | some s2 => tbRun B s2 ts
    | none => none

/-- A schedule of upstream request times (ms, in nondecreasing order) is
realizable under budget `B` iff replaying it from a full bucket at time 0
grants every request. -/
def validSchedule (B : ℕ) (ts : List ℕ) : Prop :=
  ts.Sorted (· ≤ ·) ∧
    (tbRun B { milliTokens := 1000 * (B : ℤ), lastMs := 0 } ts).isSome

/-- Number of requests of a schedule falling in the one-second window
`[a, a + 1000)` (milliseconds). -/
def windowCount (a : ℕ) : List ℕ → ℕ
  | [] => 0
  | t :: ts => (if a ≤ t ∧ t < a + 1000 then 1 else 0) + windowCount a ts

/-- Concrete handler set used to instantiate the dispatch theorems on
explicit inputs: each operation succeeds on one distinguished argument and
rejects on every other. -/
def demoHandlers : Handlers ℕ :=
  { search := fun q _ =>
      if q = some "q" then Except.ok 1 else Except.error (Thrown.errObj "eS")
    fetchSummary := fun p =>
      if p = some ["p"] then Except.ok 2 else Except.error Thrown.nonErr
    getFullText := fun p =>
      if p = some ["f"] then Except.ok 3 else Except.error (Thrown.errObj "eG") }

/-- Concrete per-PMID fetch used to instantiate the isolation theorem:
`X` succeeds with full text, every other PMID fails with a transient error
after retry exhaustion. -/
def demoFetch : String → Except UpstreamErr (Option String) :=
  fun p =>
    if p = "X" then Except.ok (some "textX")
    else Except.error UpstreamErr.transientExhausted

/-! ## Theorems -/

/-- C5: after `set(fingerprint, value, ttl)` at time `storedAt`, a `get` at
any time `t < storedAt + ttlSeconds` returns the stored value, and a `get`
at any time `t ≥ storedAt + ttlSeconds` returns absent: an entry is valid
iff `now < storedAt + ttlSeconds`, and expired entries are never
returned. -/
theorem cache_ttl_roundtrip {α : Type} (st : CacheState α) (fp : String)
    (v : α) (storedAt ttl t : ℕ) :
    (t < storedAt + ttl →
      cacheGet (cacheSet st fp v storedAt ttl) t fp = some v) ∧
    (storedAt + ttl ≤ t →
      cacheGet (cacheSet st fp v storedAt ttl) t fp = none) := by
  refine ⟨fun h => ?_, fun h => ?_⟩ <;>
    simp [cacheGet, cacheSet] <;> omega

/-- Witness for C5: a value stored at time 100 with TTL 60 is returned at
time 120 and absent at time 160. -/
theorem cache_ttl_roundtrip_witness :
    cacheGet (cacheSet (fun _ => none) "fp" (42 : ℕ) 100 60) 120 "fp" = some 42 ∧
    cacheGet (cacheSet (fun _ => none) "fp" (42 : ℕ) 100 60) 160 "fp" = none :=
  ⟨(cache_ttl_roundtrip (fun _ => none) "fp" 42 100 60 120).1 (by decide),
   (cache_ttl_roundtrip (fun _ => none) "fp" 42 100 60 160).2 (by decide)⟩

/-- C9: for each of the four configuration values, when the command-line
flag carries a non-empty value, that value is the one placed in the merged
configuration regardless of the environment variable; the environment
variable's value is used exactly when the flag is absent. -/
theorem cli_flag_precedence (argv : List String) (env : EnvVars)
    (key : ConfigKey) (s t : String) :
    (lookupLast (parseArgsList argv) key.flagName = some s → s ≠ "" →
      key.envValue env = some t → t ≠ "" →
      key.configValue (readConfig argv env) = some s) ∧
    (lookupLast (parseArgsList argv) key.flagName = none →
      key.configValue (readConfig argv env) = key.envValue env) := by
  have main : ∀ (cmd envv : Option String),
      (cmd = some s → s ≠ "" → envv = some t → t ≠ "" →
        jsOrStr cmd envv = some s) ∧
      (cmd = none → jsOrStr cmd envv = envv) := by
    intro cmd envv
    constructor
    · intro h1 h2 _ _
      simp [jsOrStr, h1, h2]
    · intro h1
      simp [jsOrStr, h1]
  cases key
  · exact main (lookupLast (parseArgsList argv) "email") env.pubmedEmail
  · exact main (lookupLast (parseArgsList argv) "api-key") env.pubmedApiKey
  · exact main (lookupLast (parseArgsList argv) "cache-dir") env.pubmedCacheDir
  · exact main (lookupLast (parseArgsList argv) "cache-ttl") env.pubmedCacheTTL

/-- Witness for C9: with `--email cli@x` on the command line and
`PUBMED_EMAIL=env@x` in the environment the merged value is `cli@x`; with
no flag it is `env@x`. -/
theorem cli_flag_precedence_witness :
    ConfigKey.configValue
      (readConfig ["--email", "cli@x"]
        ⟨some "env@x", none, none, none⟩) ConfigKey.email = some "cli@x" ∧
    ConfigKey.configValue
      (readConfig [] ⟨some "env@x", none, none, none⟩) ConfigKey.email =
      some "env@x" :=
  ⟨(cli_flag_precedence ["--email", "cli@x"] ⟨some "env@x", none, none, none⟩
      ConfigKey.email "cli@x" "env@x").1 (by decide) (by decide) rfl (by decide),
   (cli_flag_precedence [] ⟨some "env@x", none, none, none⟩
      ConfigKey.email "cli@x" "env@x").2 (by decide)⟩

/-- C10: a non-empty configured cache-TTL string is converted with
`parseInt` and placed in the options record without validation — startup
still succeeds, and the record carries `jsParseInt s`; in particular a
string with no leading decimal integer such as `"abc"` yields `NaN` and a
numeric prefix with trailing junk such as `"300x"` yields the prefix's
value `300`. -/
theorem cacheTTL_parseInt_unvalidated (cfg : ConfigValues) (e s : String)
    (he : cfg.email = some e) (hene : e ≠ "")
    (hs : cfg.cacheTTL = some s) (hsne : s ≠ "") :
    (∃ opts, startupOptions cfg = some opts ∧
      opts.cacheTTL = some (jsParseInt s)) ∧
    jsParseInt "abc" = JSNum.nan ∧
    jsParseInt "300x" = JSNum.int 300 := by
  refine ⟨⟨{ email := e, apiKey := jsTruthy cfg.apiKey,
             cacheDir := jsTruthy cfg.cacheDir,
             cacheTTL := some (jsParseInt s) }, ?_, rfl⟩, by decide, by decide⟩
  simp [startupOptions, jsTruthy, he, hene, hs, hsne]

/-- Witness for C10: startup with cache-ttl `"abc"` succeeds and stores
`NaN` in the options record. -/
theorem cacheTTL_parseInt_unvalidated_witness :
    ∃ opts,
      startupOptions ⟨some "a@b", none, none, some "abc"⟩ = some opts ∧
      opts.cacheTTL = some (jsParseInt "abc") :=
  (cacheTTL_parseInt_unvalidated ⟨some "a@b", none, none, some "abc"⟩
    "a@b" "abc" rfl (by decide) rfl (by decide)).1

/-- C8: a non-empty credential raises the rate budget from 3 to 10; a cache
directory with no TTL yields the default TTL of 86400 seconds; with neither
TTL nor directory caching is disabled entirely — every `get` under the
disabled configuration is a miss and every `set` is a no-op. -/
theorem config_budget_ttl_defaults {α : Type} (e k d : String)
    (a1 d1 t1 : Option String) (o1 o2 o3 o4 : PubmedOptions)
    (he : e ≠ "") (hk : k ≠ "") (hd : d ≠ "")
    (h1 : startupOptions { email := some e, apiKey := some k, cacheDir := d1, cacheTTL := t1 } = some o1)
    (h2 : startupOptions { email := some e, apiKey := none, cacheDir := d1, cacheTTL := t1 } = some o2)
    (h3 : startupOptions { email := some e, apiKey := a1, cacheDir := some d, cacheTTL := none } = some o3)
    (h4 : startupOptions { email := some e, apiKey := a1, cacheDir := none, cacheTTL := none } = some o4)
    (st : CacheState α) (now : ℕ) (fp : String) (v : α) :
    effectiveRateBudget o1 = 10 ∧
    effectiveRateBudget o2 = 3 ∧
    effectiveCacheConfig o3 = CacheConfig.enabled (JSNum.int 86400) ∧
    effectiveCacheConfig o4 = CacheConfig.disabled ∧
    cacheGetCfg CacheConfig.disabled st now fp = none ∧
    cacheSetCfg CacheConfig.disabled st fp v now = st := by
  simp [startupOptions, jsTruthy, he, hk] at h1 h2 h3 h4
  refine ⟨?_, ?_, ?_, ?_, rfl, rfl⟩
  · subst h1; simp [effectiveRateBudget]
  · subst h2; simp [effectiveRateBudget]
  · subst h3; simp [effectiveCacheConfig, jsTruthy, hd]
  · subst h4; simp [effectiveCacheConfig]

/-- Witness for C8 at concrete configurations: credential `"key"` gives
budget 10, no credential gives 3, directory `"dir"` with no TTL gives the
default 86400, and the empty configuration disables caching (get misses,
set is a no-op on a concrete state). -/
theorem config_budget_ttl_defaults_witness :
    effectiveRateBudget { email := "a@b", apiKey := some "key", cacheDir := none, cacheTTL := none } = 10 ∧
    effectiveRateBudget { email := "a@b", apiKey := none, cacheDir := none, cacheTTL := none } = 3 ∧
    effectiveCacheConfig { email := "a@b", apiKey := none, cacheDir := some "dir", cacheTTL := none } = CacheConfig.enabled (JSNum.int 86400) ∧
    effectiveCacheConfig { email := "a@b", apiKey := none, cacheDir := none, cacheTTL := none } = CacheConfig.disabled ∧
    cacheGetCfg CacheConfig.disabled (fun _ => none) 0 "fp" = (none : Option ℕ) ∧
    cacheSetCfg CacheConfig.disabled (fun _ => none) "fp" (7 : ℕ) 0 = (fun _ => none) :=
  config_budget_ttl_defaults "a@b" "key" "dir" none none none
    _ _ _ _ (by decide) (by decide) (by decide)
    rfl rfl rfl rfl (fun _ => none) 0 "fp" 7

/-- C6: each of the three tool names dispatches to its handler exactly once
with the caller's arguments (the invocation log has exactly that one
entry); a successful handler result is returned as a single text content
item holding its JSON serialization; a handler failure is returned — not
re-thrown — as a single text content item whose text extends the thrown
error's message verbatim (`Unknown error` standing in when the rejected
value carries no message). -/
theorem callTool_invokes_once_and_wraps {J : Type} (stringify : J → String)
    (h : Handlers J) (qa qb : Option String) (oa ob : Option SearchOptionsArg)
    (pa pb pc pd : Option (List String)) (px : Option (List String))
    (qx : Option String) (ox : Option SearchOptionsArg)
    (rS rF rG : J) (eS eF eG : Thrown)
    (hS1 : h.search qa oa = Except.ok rS)
    (hS2 : h.search qb ob = Except.error eS)
    (hF1 : h.fetchSummary pa = Except.ok rF)
    (hF2 : h.fetchSummary pb = Except.error eF)
    (hG1 : h.getFullText pc = Except.ok rG)
    (hG2 : h.getFullText pd = Except.error eG) :
    callTool stringify h "search_pubmed" { query := qa, searchOptions := oa, pmids := px } =
      Except.ok (⟨[⟨"text", stringify rS⟩]⟩, [HandlerCall.searchCall qa oa]) ∧
    callTool stringify h "search_pubmed" { query := qb, searchOptions := ob, pmids := px } =
      Except.ok (⟨[⟨"text", "Error searching PubMed: " ++ thrownText eS⟩]⟩,
        [HandlerCall.searchCall qb ob]) ∧
    callTool stringify h "fetch_summary" { query := qx, searchOptions := ox, pmids := pa } =
      Except.ok (⟨[⟨"text", stringify rF⟩]⟩, [HandlerCall.fetchSummaryCall pa]) ∧
    callTool stringify h "fetch_summary" { query := qx, searchOptions := ox, pmids := pb } =
      Except.ok (⟨[⟨"text", "Error fetching article summaries: " ++ thrownText eF⟩]⟩,
        [HandlerCall.fetchSummaryCall pb]) ∧
    callTool stringify h "get_fulltext" { query := qx, searchOptions := ox, pmids := pc } =
      Except.ok (⟨[⟨"text", stringify rG⟩]⟩, [HandlerCall.getFullTextCall pc]) ∧
    callTool stringify h "get_fulltext" { query := qx, searchOptions := ox, pmids := pd } =
      Except.ok (⟨[⟨"text", "Error fetching full text: " ++ thrownText eG⟩]⟩,
        [HandlerCall.getFullTextCall pd]) ∧
    (∀ m, thrownText (Thrown.errObj m) = m) ∧
    thrownText Thrown.nonErr = "Unknown error" := by
  refine ⟨?_, ?_, ?_, ?_, ?_, ?_, fun m => rfl, rfl⟩ <;>
    simp [callTool, hS1, hS2, hF1, hF2, hG1, hG2]

/-- Witness for C6 with concrete handlers: one success and one failure per
tool, showing the single-item response shapes and the `Unknown error`
fallback. -/
theorem callTool_invokes_once_and_wraps_witness :
    callTool (fun _ => "J") demoHandlers "search_pubmed"
      { query := some "q", searchOptions := none, pmids := none } =
      Except.ok (⟨[⟨"text", "J"⟩]⟩, [HandlerCall.searchCall (some "q") none]) ∧
    callTool (fun _ => "J") demoHandlers "search_pubmed"
      { query := none, searchOptions := none, pmids := none } =
      Except.ok (⟨[⟨"text", "Error searching PubMed: " ++ thrownText (Thrown.errObj "eS")⟩]⟩,
        [HandlerCall.searchCall none none]) ∧
    callTool (fun _ => "J") demoHandlers "fetch_summary"
      { query := none, searchOptions := none, pmids := some ["p"] } =
      Except.ok (⟨[⟨"text", "J"⟩]⟩, [HandlerCall.fetchSummaryCall (some ["p"])]) ∧
    callTool (fun _ => "J") demoHandlers "fetch_summary"
      { query := none, searchOptions := none, pmids := none } =
      Except.ok (⟨[⟨"text", "Error fetching article summaries: " ++ thrownText Thrown.nonErr⟩]⟩,
        [HandlerCall.fetchSummaryCall none]) ∧
    callTool (fun _ => "J") demoHandlers "get_fulltext"
      { query := none, searchOptions := none, pmids := some ["f"] } =
      Except.ok (⟨[⟨"text", "J"⟩]⟩, [HandlerCall.getFullTextCall (some ["f"])]) ∧
    callTool (fun _ => "J") demoHandlers "get_fulltext"
      { query := none, searchOptions := none, pmids := none } =
      Except.ok (⟨[⟨"text", "Error fetching full text: " ++ thrownText (Thrown.errObj "eG")⟩]⟩,
        [HandlerCall.getFullTextCall none]) ∧
    (∀ m, thrownText (Thrown.errObj m) = m) ∧
    thrownText Thrown.nonErr = "Unknown error" :=
  callTool_invokes_once_and_wraps (fun _ => "J") demoHandlers
    (some "q") none none none (some ["p"]) none (some ["f"]) none none none none
    1 2 3 (Thrown.errObj "eS") Thrown.nonErr (Thrown.errObj "eG")
    rfl rfl rfl rfl rfl rfl

/-- C7: the tool listing returns precisely the three tools `search_pubmed`,
`fetch_summary`, `get_fulltext`, and a tool call with any other name fails
with an error naming the unknown tool instead of returning a result. -/
theorem surface_three_tools_only :
    listToolsResult.map ToolDecl.name =
      ["search_pubmed", "fetch_summary", "get_fulltext"] ∧
    ∀ (name : String),
      name ∉ (["search_pubmed", "fetch_summary", "get_fulltext"] : List String) →
      ∀ (J : Type) (stringify : J → String) (h : Handlers J) (args : ToolCallArgs),
        callTool stringify h name args =
          Except.error ("Unknown tool: " ++ name) := by
  constructor
  · rfl
  · intro name hname J stringify h args
    simp only [List.mem_cons, List.not_mem_nil, or_false, not_or] at hname
    obtain ⟨h1, h2, h3⟩ := hname
    simp [callTool, h1, h2, h3]

/-- Witness for C7: calling the unknown tool name `unknown_tool` throws
`Unknown tool: unknown_tool`. -/
theorem surface_three_tools_only_witness :
    callTool (fun _ : Unit => "")
      ⟨fun _ _ => Except.ok (), fun _ => Except.ok (), fun _ => Except.ok ()⟩
      "unknown_tool" { query := none, searchOptions := none, pmids := none } =
      Except.error ("Unknown tool: " ++ "unknown_tool") :=
  surface_three_tools_only.2 "unknown_tool" (by decide) Unit (fun _ => "")
    ⟨fun _ _ => Except.ok (), fun _ => Except.ok (), fun _ => Except.ok ()⟩
    { query := none, searchOptions := none, pmids := none }

/-- Running the registry over arrivals only, while a call is pending,
appends each arriving caller to the pending list and changes nothing
else. -/
theorem regRun_arrives {α : Type} (ids : List ℕ) (l : List ℕ)
    (r : List (ℕ × α)) (p m : ℕ) :
    regRun { pending := some l, results := r, producerRuns := p, removals := m }
      (ids.map RegEvent.arrive) =
      { pending := some (l ++ ids), results := r, producerRuns := p, removals := m } := by
  induction ids generalizing l with
  | nil => simp [regRun]
  | cons i tl ih =>
    have hstep :
        regStep { pending := some l, results := r, producerRuns := p, removals := m }
          (RegEvent.arrive i) =
          { pending := some (l ++ [i]), results := r, producerRuns := p, removals := m } := rfl
    have htl := ih (l ++ [i])
    simp only [regRun, List.map_cons, List.foldl_cons] at htl ⊢
    rw [hstep, htl]
    simp

/-- C2: for every non-empty set of concurrent callers with one fingerprint,
arriving in any order before the shared call settles, the producer (the
real upstream call) runs exactly once, every caller receives the identical
outcome, the in-flight entry is removed exactly once, and a later arrival
for the same fingerprint starts fresh by invoking the producer again. -/
theorem inflight_dedupe_single_producer {α : Type} (ids : List ℕ) (o : α)
    (j : ℕ) (hne : ids ≠ []) :
    (regRun regInit (ids.map RegEvent.arrive ++ [RegEvent.settle o])).producerRuns = 1 ∧
    (regRun regInit (ids.map RegEvent.arrive ++ [RegEvent.settle o])).removals = 1 ∧
    (regRun regInit (ids.map RegEvent.arrive ++ [RegEvent.settle o])).pending = none ∧
    (regRun regInit (ids.map RegEvent.arrive ++ [RegEvent.settle o])).results =
      ids.map (fun i => (i, o)) ∧
    (regStep (regRun regInit (ids.map RegEvent.arrive ++ [RegEvent.settle o]))
        (RegEvent.arrive j)).producerRuns = 2 := by
  obtain ⟨i, tl, rfl⟩ : ∃ i tl, ids = i :: tl := by
    cases ids with
    | nil => exact absurd rfl hne
    | cons i tl => exact ⟨i, tl, rfl⟩
  have harr : regRun (regInit (α := α)) ((i :: tl).map RegEvent.arrive) =
      { pending := some (i :: tl), results := [], producerRuns := 1, removals := 0 } := by
    have hstep : regStep (regInit (α := α)) (RegEvent.arrive i) =
        { pending := some [i], results := [], producerRuns := 1, removals := 0 } := rfl
    have htl := regRun_arrives (α := α) tl [i] [] 1 0
    simp only [regRun, List.map_cons, List.foldl_cons] at htl ⊢
    rw [hstep, htl]
    simp
  have hfull : regRun (regInit (α := α))
      ((i :: tl).map RegEvent.arrive ++ [RegEvent.settle o]) =
      { pending := none, results := (i :: tl).map (fun x => (x, o)),
        producerRuns := 1, removals := 1 } := by
    have happ : regRun (regInit (α := α))
        ((i :: tl).map RegEvent.arrive ++ [RegEvent.settle o]) =
        regRun (regRun (regInit (α := α)) ((i :: tl).map RegEvent.arrive))
          [RegEvent.settle o] := by
      simp [regRun, List.foldl_append]
    rw [happ, harr]
    simp [regRun, regStep]
  rw [hfull]
  exact ⟨rfl, rfl, rfl, rfl, rfl⟩

/-- Witness for C2: three concurrent callers, one producer run, one
removal, all three callers settled with the same outcome, and a fourth
caller after settlement triggers a second producer run. -/
theorem inflight_dedupe_single_producer_witness :
    (regRun regInit ([1, 2, 3].map RegEvent.arrive ++ [RegEvent.settle "out"])).producerRuns = 1 ∧
    (regRun regInit ([1, 2, 3].map RegEvent.arrive ++ [RegEvent.settle "out"])).removals = 1 ∧
    (regRun regInit ([1, 2, 3].map RegEvent.arrive ++ [RegEvent.settle "out"])).pending = none ∧
    (regRun regInit ([1, 2, 3].map RegEvent.arrive ++ [RegEvent.settle "out"])).results =
      [1, 2, 3].map (fun i => (i, "out")) ∧
    (regStep (regRun regInit ([1, 2, 3].map RegEvent.arrive ++ [RegEvent.settle "out"]))
        (RegEvent.arrive 4)).producerRuns = 2 :=
  inflight_dedupe_single_producer [1, 2, 3] "out" 4 (by decide)

/-- Batching is partitioning: concatenating the batches gives back the
requested PMID list. -/
theorem chunkList_flatten {γ : Type} (n : ℕ) (l : List γ) :
    (chunkList n l).flatten = l := by
  induction l using chunkList.induct n with
  | case1 => simp [chunkList]
  | case2 x xs ih =>
    rw [chunkList]
    simp [ih]

/-- `foundPairs` distributes over list append. -/
theorem foundPairs_append {α : Type} (oracle : String → Option α)
    (l1 l2 : List String) :
    foundPairs oracle (l1 ++ l2) = foundPairs oracle l1 ++ foundPairs oracle l2 := by
  simp [foundPairs]

/-- Pooling the per-batch found pairs equals the found pairs of the pooled
batches. -/
theorem flatten_map_foundPairs {α : Type} (oracle : String → Option α)
    (cs : List (List String)) :
    (cs.map (foundPairs oracle)).flatten = foundPairs oracle cs.flatten := by
  induction cs with
  | nil => rfl
  | cons c cs ih => simp [foundPairs_append, ih, foundPairs]

/-- Membership in `foundPairs`: exactly the pairs whose key is a requested
PMID the oracle knows, carrying the oracle's record. -/
theorem mem_foundPairs {α : Type} {oracle : String → Option α}
    {ps : List String} {pr : String × α} :
    pr ∈ foundPairs oracle ps ↔ pr.1 ∈ ps ∧ oracle pr.1 = some pr.2 := by
  constructor
  · intro h
    obtain ⟨p, hp, he⟩ := List.mem_filterMap.1 h
    obtain ⟨s, hs, hps⟩ := Option.map_eq_some'.1 he
    cases hps
    exact ⟨hp, hs⟩
  · intro ⟨h1, h2⟩
    exact List.mem_filterMap.2 ⟨pr.1, h1, by simp [h2]⟩

/-- With a response pool that is a permutation of the upstream's found
pairs, looking a requested PMID up in the pool gives exactly the oracle's
record for it, regardless of response order. -/
theorem lookupPmid_eq_oracle {α : Type} {oracle : String → Option α}
    {pool : List (String × α)} {pmids : List String}
    (hperm : pool.Perm (foundPairs oracle pmids)) {p : String}
    (hp : p ∈ pmids) :
    lookupPmid pool p = oracle p := by
  have hcons : ∀ pr ∈ pool, oracle pr.1 = some pr.2 := fun pr hpr =>
    (mem_foundPairs.1 (hperm.mem_iff.1 hpr)).2
  cases hfind : pool.find? (fun q => q.1 == p) with
  | some pr =>
    have hmem := List.mem_of_find?_eq_some hfind
    have hpred : pr.1 = p := by simpa using List.find?_some hfind
    unfold lookupPmid
    rw [hfind]
    simp [← hpred, hcons pr hmem]
  | none =>
    unfold lookupPmid
    rw [hfind]
    cases ho : oracle p with
    | none => rfl
    | some s =>
      have hmem : (p, s) ∈ pool :=
        hperm.mem_iff.2 (mem_foundPairs.2 ⟨hp, ho⟩)
      have := List.find?_eq_none.1 hfind _ hmem
      simp at this

/-- C3: with one response list per batch, each a permutation of the records
upstream holds for that batch (out-of-order delivery), the re-assembled
`fetchSummary` output has the input's length and its i-th entry corresponds
to the i-th requested PMID — the oracle's summary when the PMID exists
upstream, an explicit "not found" marker at that position otherwise. -/
theorem fetchSummary_order_preserving {α : Type} (oracle : String → Option α)
    (batchSize : ℕ) (pmids : List String)
    (responses : List (List (String × α)))
    (hresp : List.Forall₂ (fun r b => r.Perm (foundPairs oracle b))
      responses (chunkList batchSize pmids)) :
    (assembleSummaries responses pmids).length = pmids.length ∧
    ∀ (i : ℕ) (hi : i < pmids.length)
      (hi2 : i < (assembleSummaries responses pmids).length),
      (assembleSummaries responses pmids).get ⟨i, hi2⟩ =
        match oracle (pmids.get ⟨i, hi⟩) with
        | some s => SummaryEntry.found s
        | none => SummaryEntry.notFound (pmids.get ⟨i, hi⟩) := by
  have hpool : responses.flatten.Perm (foundPairs oracle pmids) := by
    have h1 : List.Forall₂ List.Perm responses
        ((chunkList batchSize pmids).map (foundPairs oracle)) :=
      List.forall₂_map_right_iff.2 hresp
    have h2 := List.Perm.flatten_congr h1
    rwa [flatten_map_foundPairs, chunkList_flatten] at h2
  constructor
  · simp [assembleSummaries]
  · intro i hi hi2
    have hget : (assembleSummaries responses pmids).get ⟨i, hi2⟩ =
        (match lookupPmid responses.flatten (pmids.get ⟨i, hi⟩) with
         | some s => SummaryEntry.found s
         | none => SummaryEntry.notFound (pmids.get ⟨i, hi⟩)) := by
      simp [assembleSummaries, List.get_eq_getElem, List.getElem_map]
    rw [hget, lookupPmid_eq_oracle hpool (pmids.get_mem i hi)]

/-- Witness for C3: requesting `[A, B, C]` in one batch whose response
arrives out of order and lacks `B` yields exactly
`[found A-summary, not-found B, found C-summary]`. -/
theorem fetchSummary_order_preserving_witness :
    (assembleSummaries [[("C", "sumC"), ("A", "sumA")]] ["A", "B", "C"]).length = 3 ∧
    assembleSummaries [[("C", "sumC"), ("A", "sumA")]] ["A", "B", "C"] =
      [SummaryEntry.found "sumA", SummaryEntry.notFound "B",
        SummaryEntry.found "sumC"] := by
  have h := fetchSummary_order_preserving
    (fun p => if p = "A" then some "sumA" else if p = "C" then some "sumC" else none)
    2 ["A", "B", "C"] [[("C", "sumC"), ("A", "sumA")]] ?hyp
  case hyp =>
    rw [show chunkList 2 ["A", "B", "C"] = [["A", "B", "C"]] from by simp [chunkList]]
    exact List.Forall₂.cons (by decide) List.Forall₂.nil
  exact ⟨h.1, by decide⟩

/-- C4: `getFullText` returns one entry per requested PMID even when some
per-PMID fetches fail: a PMID whose fetch succeeds gets its full text (or
`null` when upstream has none), a PMID whose fetch fails — for example with
a transient error after retry exhaustion — gets a `null` entry at its
position, and the batch operation itself is a total function into a result
list, never a thrown failure. -/
theorem getFullText_isolates_failures
    (fetch : String → Except UpstreamErr (Option String))
    (pmids : List String) :
    (getFullTextModel fetch pmids).length = pmids.length ∧
    ∀ (i : ℕ) (hi : i < pmids.length)
      (hi2 : i < (getFullTextModel fetch pmids).length),
      (∀ t, fetch (pmids.get ⟨i, hi⟩) = Except.ok t →
        (getFullTextModel fetch pmids).get ⟨i, hi2⟩ =
          { pmid := pmids.get ⟨i, hi⟩, fullText := t }) ∧
      (∀ e, fetch (pmids.get ⟨i, hi⟩) = Except.error e →
        (getFullTextModel fetch pmids).get ⟨i, hi2⟩ =
          { pmid := pmids.get ⟨i, hi⟩, fullText := none }) := by
  constructor
  · simp [getFullTextModel]
  · intro i hi hi2
    refine ⟨fun x hx => ?_, fun x hx => ?_⟩ <;>
      simp only [List.get_eq_getElem] at hx <;>
      simp [getFullTextModel, fullTextEntry, List.get_eq_getElem,
        List.getElem_map, hx]

/-- Witness for C4: `getFullText(['X','Y'])` where `Y`'s fetch fails
transiently still returns a two-element sequence with `X` populated and
`Y` null. -/
theorem getFullText_isolates_failures_witness :
    (getFullTextModel demoFetch ["X", "Y"]).length = 2 ∧
    (getFullTextModel demoFetch ["X", "Y"]).get ⟨0, by decide⟩ =
      { pmid := "X", fullText := some "textX" } ∧
    (getFullTextModel demoFetch ["X", "Y"]).get ⟨1, by decide⟩ =
      { pmid := "Y", fullText := none } := by
  refine ⟨(getFullText_isolates_failures demoFetch ["X", "Y"]).1, ?_, ?_⟩
  · exact ((getFullText_isolates_failures demoFetch ["X", "Y"]).2 0
      (by decide) (by decide)).1 (some "textX") rfl
  · exact ((getFullText_isolates_failures demoFetch ["X", "Y"]).2 1
      (by decide) (by decide)).2 UpstreamErr.transientExhausted rfl

/-- A granted bucket step leaves a nonnegative balance strictly below
capacity, consumes one token beyond the refill, and updates the
timestamp. -/
theorem tbStep_some {B : ℕ} {s s2 : TBState} {t : ℕ}
    (h : tbStep B s t = some s2) :
    0 ≤ s2.milliTokens ∧
    s2.milliTokens ≤ 1000 * (B : ℤ) - 1000 ∧
    s2.milliTokens ≤
      s.milliTokens + (B : ℤ) * ((t : ℤ) - (s.lastMs : ℤ)) - 1000 ∧
    s2.lastMs = t := by
  unfold tbStep at h
  by_cases hc : (1000 : ℤ) ≤ tbRefill B s t
  · rw [if_pos hc] at h
    injection h with h2
    subst h2
    have hcapb : tbRefill B s t ≤ 1000 * (B : ℤ) := min_le_left _ _
    have hright : tbRefill B s t ≤
        s.milliTokens + (B : ℤ) * ((t : ℤ) - (s.lastMs : ℤ)) := min_le_right _ _
    refine ⟨?_, ?_, ?_, rfl⟩ <;> dsimp only <;> omega
  · rw [if_neg hc] at h
    exact absurd h (by simp)

/-- Telescoped refill bound: over a run whose grant times all lie below
`b`, the final balance is at most the initial balance plus the refill over
`[lastMs, b]`, minus one full token per grant.  (The cap only lowers the
balance, so it can be ignored on the upper side.) -/
theorem tbRun_tokens_bound (B : ℕ) (b : ℤ) :
    ∀ (ts : List ℕ) (s s' : TBState),
      tbRun B s ts = some s' → (∀ t ∈ ts, (t : ℤ) ≤ b) →
      (s.lastMs : ℤ) ≤ b →
      s'.milliTokens ≤
        s.milliTokens + (B : ℤ) * (b - (s.lastMs : ℤ)) - 1000 * ts.length := by
  intro ts
  induction ts with
  | nil =>
    intro s s' hrun _ hlast
    simp only [tbRun] at hrun
    injection hrun with h2
    subst h2
    have : 0 ≤ (B : ℤ) * (b - (s.lastMs : ℤ)) :=
      mul_nonneg (by positivity) (by omega)
    simp
    omega
  | cons t ts ih =>
    intro s s' hrun hmem hlast
    rw [tbRun] at hrun
    cases hstep : tbStep B s t with
    | none => rw [hstep] at hrun; exact absurd hrun (by simp)
    | some s2 =>
      rw [hstep] at hrun
      obtain ⟨_, _, h2mono, h2last⟩ := tbStep_some hstep
      have htb : ((t : ℕ) : ℤ) ≤ b := hmem t (List.mem_cons_self _ _)
      have hrec := ih s2 s' hrun
        (fun x hx => hmem x (List.mem_cons_of_mem _ hx))
        (by rw [h2last]; exact htb)
      rw [h2last] at hrec
      have hring : (B : ℤ) * ((t : ℤ) - (s.lastMs : ℤ)) + (B : ℤ) * (b - (t : ℤ))
          = (B : ℤ) * (b - (s.lastMs : ℤ)) := by ring
      simp only [List.length_cons] at hrec ⊢
      push_cast at hrec ⊢
      linarith [hrec, h2mono, hring]

/-- A run that starts with a nonnegative balance ends with one. -/
theorem tbRun_nonneg {B : ℕ} :
    ∀ {ts : List ℕ} {s s' : TBState},
      tbRun B s ts = some s' → 0 ≤ s.milliTokens → 0 ≤ s'.milliTokens := by
  intro ts
  induction ts with
  | nil =>
    intro s s' hrun h0
    simp only [tbRun] at hrun
    injection hrun with h2
    subst h2
    exact h0
  | cons t ts ih =>
    intro s s' hrun _
    rw [tbRun] at hrun
    cases hstep : tbStep B s t with
    | none => rw [hstep] at hrun; exact absurd hrun (by simp)
    | some s2 =>
      rw [hstep] at hrun
      exact ih hrun (tbStep_some hstep).1

/-- A successful run over an appended schedule factors through the state
after the first part. -/
theorem tbRun_append_some {B : ℕ} :
    ∀ (l1 : List ℕ) {l2 : List ℕ} {s s' : TBState},
      tbRun B s (l1 ++ l2) = some s' →
      ∃ sm, tbRun B s l1 = some sm ∧ tbRun B sm l2 = some s' := by
  intro l1
  induction l1 with
  | nil => intro l2 s s' h; exact ⟨s, rfl, h⟩
  | cons t l1 ih =>
    intro l2 s s' h
    rw [List.cons_append, tbRun] at h
    cases hstep : tbStep B s t with
    | none => rw [hstep] at h; exact absurd h (by simp)
    | some s2 =>
      rw [hstep] at h
      obtain ⟨sm, h1, h2⟩ := ih h
      refine ⟨sm, ?_, h2⟩
      rw [tbRun, hstep]
      exact h1

/-- A schedule lying entirely at or beyond the window's end contributes
nothing to the window count. -/
theorem windowCount_zero_of_ge {a : ℕ} :
    ∀ {l : List ℕ}, (∀ x ∈ l, a + 1000 ≤ x) → windowCount a l = 0 := by
  intro l
  induction l with
  | nil => intro _; rfl
  | cons x xs ih =>
    intro h
    rw [windowCount]
    have hx := h x (List.mem_cons_self _ _)
    rw [if_neg (by omega)]
    simpa using ih (fun y hy => h y (List.mem_cons_of_mem _ hy))

/-- For a sorted schedule lying entirely at or after the window's start,
the window count is the length of the longest prefix below the window's
end. -/
theorem windowCount_eq_takeWhile {a : ℕ} :
    ∀ {l : List ℕ}, l.Sorted (· ≤ ·) → (∀ x ∈ l, a ≤ x) →
      windowCount a l = (l.takeWhile (fun t => decide (t < a + 1000))).length := by
  intro l
  induction l with
  | nil => intro _ _; rfl
  | cons x xs ih =>
    intro hsort hge
    have hx_ge : a ≤ x := hge x (List.mem_cons_self _ _)
    have hxs_le : ∀ y ∈ xs, x ≤ y := (List.sorted_cons.1 hsort).1
    have hxs_sorted := (List.sorted_cons.1 hsort).2
    rw [windowCount]
    by_cases hx : x < a + 1000
    · rw [if_pos ⟨hx_ge, hx⟩]
      have hxs_ge : ∀ y ∈ xs, a ≤ y := fun y hy =>
        le_trans hx_ge (hxs_le y hy)
      simp [List.takeWhile_cons, hx, ih hxs_sorted hxs_ge]
      omega
    · rw [if_neg (by omega)]
      have hxs0 : windowCount a xs = 0 :=
        windowCount_zero_of_ge (fun y hy => le_trans (by omega) (hxs_le y hy))
      simp [List.takeWhile_cons, hx, hxs0]

/-- Core sliding-window bound for the token bucket: a realizable run from
any in-range state grants at most `2 * B` requests inside any one-second
window (`B` from the balance available at the window's start, `B` more
from the refill during the window). -/
theorem tbRun_windowCount_le {B : ℕ} (a : ℕ) :
    ∀ (ts : List ℕ) (s s' : TBState),
      tbRun B s ts = some s' → ts.Sorted (· ≤ ·) →
      0 ≤ s.milliTokens → s.milliTokens ≤ 1000 * (B : ℤ) →
      windowCount a ts ≤ 2 * B := by
  intro ts
  induction ts with
  | nil => intro s s' _ _ _ _; simp [windowCount]
  | cons t ts ih =>
    intro s s' hrun hsort h0 hcap
    rw [tbRun] at hrun
    cases hstep : tbStep B s t with
    | none => rw [hstep] at hrun; exact absurd hrun (by simp)
    | some s2 =>
      rw [hstep] at hrun
      obtain ⟨h2nonneg, h2cap, _, h2last⟩ := tbStep_some hstep
      have hsort' := (List.sorted_cons.1 hsort).2
      have hts_ge_t : ∀ y ∈ ts, t ≤ y := (List.sorted_cons.1 hsort).1
      rw [windowCount]
      by_cases hlt : t < a
      · rw [if_neg (by omega)]
        have := ih s2 s' hrun hsort' h2nonneg (by omega)
        omega
      · by_cases hhi : a + 1000 ≤ t
        · rw [if_neg (by omega)]
          have h0' : windowCount a ts = 0 :=
            windowCount_zero_of_ge (fun y hy => le_trans hhi (hts_ge_t y hy))
          omega
        · rw [if_pos (by omega)]
          have hts_ge_a : ∀ y ∈ ts, a ≤ y := fun y hy =>
            le_trans (by omega) (hts_ge_t y hy)
          rw [windowCount_eq_takeWhile hsort' hts_ge_a]
          have hsplit :
              ts = ts.takeWhile (fun x => decide (x < a + 1000)) ++
                ts.dropWhile (fun x => decide (x < a + 1000)) :=
            (List.takeWhile_append_dropWhile _ _).symm
          rw [hsplit] at hrun
          obtain ⟨sm, hrun1, _⟩ := tbRun_append_some _ hrun
          have hmem : ∀ x ∈ ts.takeWhile (fun x => decide (x < a + 1000)),
              ((x : ℕ) : ℤ) ≤ (a : ℤ) + 1000 := by
            intro x hx
            have hx2 := List.mem_takeWhile_imp hx
            simp only [decide_eq_true_eq] at hx2
            omega
          have hlast2 : ((s2.lastMs : ℕ) : ℤ) ≤ (a : ℤ) + 1000 := by
            rw [h2last]
            omega
          have hbound := tbRun_tokens_bound B ((a : ℤ) + 1000) _ s2 sm
            hrun1 hmem hlast2
          have hnn := tbRun_nonneg hrun1 h2nonneg
          have hmul : (B : ℤ) * ((a : ℤ) + 1000 - (s2.lastMs : ℤ)) ≤
              (B : ℤ) * 1000 := by
            apply mul_le_mul_of_nonneg_left _ (by positivity)
            rw [h2last]
            omega
          have hlen : 1000 *
              ((ts.takeWhile (fun x => decide (x < a + 1000))).length : ℤ) ≤
              2000 * (B : ℤ) - 1000 := by
            linarith [hbound, hnn, h2cap, hmul]
          omega

/-- C1 is refuted as stated: under the spec's token bucket (capacity `B`,
continuous refill at `B` per second, starting full) the default budget
`B = 3` admits the realizable schedule `[0, 0, 0, 400, 800]` with five
upstream requests inside the one-second window starting at 0 — a full
burst plus refilled tokens exceeds `B` per sliding window. -/
theorem rate_window_budget_counterexample :
    validSchedule
      (effectiveRateBudget
        { email := "a@b", apiKey := none, cacheDir := none, cacheTTL := none })
      [0, 0, 0, 400, 800] ∧
    effectiveRateBudget
      { email := "a@b", apiKey := none, cacheDir := none, cacheTTL := none } = 3 ∧
    ¬ windowCount 0 [0, 0, 0, 400, 800] ≤ 3 :=
  ⟨⟨by decide, by decide⟩, rfl, by decide⟩

/-- C1 (amended): for every configured budget `B` (3 by default, 10 with a
credential) and every realizable schedule of upstream request times, at
most `2 * B` upstream requests fall in any one-second window (`B` of
initial burst capacity plus `B` refilled within the window); every genuine
upstream attempt, including each internal retry, first consumes a
rate-limiter token (token acquisitions equal upstream attempts), while a
cache hit performs no pipeline event at all. -/
theorem rate_window_bound_amended (opts : PubmedOptions) (ts : List ℕ)
    (a : ℕ) (hv : validSchedule (effectiveRateBudget opts) ts)
    (oracle : ℕ → AttemptOutcome) (v : String) :
    windowCount a ts ≤ 2 * effectiveRateBudget opts ∧
    operationRun (some v) oracle = ([], Except.ok v) ∧
    ∀ fuel i,
      (transportGo oracle fuel i).1.count PipeEvent.acquireToken =
        (transportGo oracle fuel i).1.count PipeEvent.upstreamAttempt := by
  obtain ⟨hsort, hrun⟩ := hv
  obtain ⟨s', hs'⟩ := Option.isSome_iff_exists.1 hrun
  refine ⟨tbRun_windowCount_le a ts _ s' hs' hsort (by positivity) le_rfl,
    rfl, ?_⟩
  intro fuel
  induction fuel with
  | zero => intro i; rfl
  | succ n ih =>
    intro i
    cases h : oracle i <;>
      simp [transportGo, h, List.count_cons, ih (i + 1)]

/-- Witness for the amended C1: the default budget admits the burst
`[0, 0, 0]`, which stays within `2 * 3` per window; a cache hit produces no
pipeline events; and with an always-transient oracle token acquisitions
equal upstream attempts for every fuel. -/
theorem rate_window_bound_amended_witness :
    windowCount 0 [0, 0, 0] ≤
      2 * effectiveRateBudget
        { email := "a@b", apiKey := none, cacheDir := none, cacheTTL := none } ∧
    operationRun (some "v") (fun _ => AttemptOutcome.transient) =
      ([], Except.ok "v") ∧
    ∀ fuel i,
      ((transportGo (fun _ => AttemptOutcome.transient) fuel i).1.count
        PipeEvent.acquireToken) =
      ((transportGo (fun _ => AttemptOutcome.transient) fuel i).1.count
        PipeEvent.upstreamAttempt) :=
  rate_window_bound_amended
    { email := "a@b", apiKey := none, cacheDir := none, cacheTTL := none }
    [0, 0, 0] 0 ⟨by decide, by decide⟩ (fun _ => AttemptOutcome.transient) "v"

end PubmedMCP
